import Mathlib

/-!
Verification of the blackjack table frontend (src/frontend/src/pages/Game.tsx
and src/frontend/src/types/game.ts), shallowly embedded in Lean.  The backend
game engine is not among the repository sources; where a property concerns it
(the hand evaluator) the definition is modelled from the specification and
marked as such in its doc comment.
-/

namespace Blackjack

/-- Card suits, from the Suit enum in types/game.ts. -/
inductive Suit where
  | hearts
  | diamonds
  | clubs
  | spades
deriving DecidableEq, Repr

/-- Card ranks, from the CardRank enum in types/game.ts. -/
inductive CardRank where
  | ace
  | two
  | three
  | four
  | five
  | six
  | seven
  | eight
  | nine
  | ten
  | jack
  | queen
  | king
deriving DecidableEq, Repr

/-- A card as the frontend sees it (types/game.ts Card). -/
structure Card where
  suit : Suit
  rank : CardRank
  value : Nat
  hidden : Bool
deriving DecidableEq, Repr

/-- A hand as the frontend sees it (types/game.ts Hand). -/
structure Hand where
  cards : List Card
  value : Nat
  bet : Nat
  is_split : Bool
  is_doubled : Bool
  is_surrendered : Bool
  is_finished : Bool
  is_blackjack : Bool
  is_bust : Bool
  can_split : Bool
  can_double : Bool
deriving DecidableEq, Repr

/-- Table status values, from the GameState enum in types/game.ts. -/
inductive Status where
  | waiting
  | betting
  | dealing
  | playing
  | dealer_turn
  | finished
deriving DecidableEq, Repr

/-- A player as held in the Game page state (GamePlayer in Game.tsx). -/
structure GamePlayer where
  id : String
  name : String
  chips : Int
  hands : List Hand
  seatPosition : Nat
  isActive : Bool
  isCurrentPlayer : Bool
deriving DecidableEq, Repr

/-- The Game page state (GameState in Game.tsx). -/
structure GameState where
  id : String
  tableId : String
  name : String
  status : Status
  players : List GamePlayer
  dealerHand : Hand
  currentPlayerId : Option String
  minBet : Nat
  maxBet : Nat
  bet_countdown : Nat
deriving DecidableEq, Repr

/-- Result categories used by the win notification in Game.tsx
(the winType union: win, blackjack, push, lose). -/
inductive WinType where
  | win
  | blackjack
  | push
  | lose
deriving DecidableEq, Repr

/-- Per-hand outcome and returned amount, following the if chain in
checkForWinResults (Game.tsx lines 169-201).  Math.floor(bet * 1.5) on an
integer bet is bet * 3 / 2 in natural division. -/
def handResult (dealer : Hand) (hand : Hand) : WinType × Nat :=
  let dealerValue := dealer.value
  let dealerBlackjack := decide (dealer.cards.length = 2 ∧ dealerValue = 21)
  let dealerBust := decide (21 < dealerValue)
  if hand.is_bust then (WinType.lose, 0)
  else if hand.is_blackjack && !dealerBlackjack then
    (WinType.blackjack, hand.bet + hand.bet * 3 / 2)
  else if hand.is_blackjack && dealerBlackjack then (WinType.push, hand.bet)
  else if dealerBust && !hand.is_bust then (WinType.win, hand.bet * 2)
  else if decide (dealerValue < hand.value) then (WinType.win, hand.bet * 2)
  else if decide (hand.value = dealerValue) then (WinType.push, hand.bet)
  else (WinType.lose, 0)

/-- The settlement table of the specification for hands that are neither
surrendered nor blackjacks, written from the spec words (section 4.5): bust
loses with return 0; otherwise dealer bust or a higher total wins bet times 2;
an equal total pushes returning the bet; a lower total loses with return 0. -/
def settleNonBlackjackSpec (dealer : Hand) (hand : Hand) : WinType × Nat :=
  if hand.is_bust then (WinType.lose, 0)
  else if 21 < dealer.value ∨ dealer.value < hand.value then (WinType.win, hand.bet * 2)
  else if hand.value = dealer.value then (WinType.push, hand.bet)
  else (WinType.lose, 0)

/-- A hand with the given cards, value and bet and every flag false. -/
def plainHand (cards : List Card) (value : Nat) (bet : Nat) : Hand :=
  ⟨cards, value, bet, false, false, false, false, false, false, false, false⟩

def kingSpades : Card := ⟨Suit.spades, CardRank.king, 10, false⟩

def tenHearts : Card := ⟨Suit.hearts, CardRank.ten, 10, false⟩

def sevenClubs : Card := ⟨Suit.clubs, CardRank.seven, 7, false⟩

def nineDiamonds : Card := ⟨Suit.diamonds, CardRank.nine, 9, false⟩

def aceSpades : Card := ⟨Suit.spades, CardRank.ace, 11, false⟩

def fiveClubs : Card := ⟨Suit.clubs, CardRank.five, 5, false⟩

/-- One iteration of the forEach body in checkForWinResults (Game.tsx lines
174-211): surrendered hands are skipped, and only the hand at index 0 updates
the notification state (win type, amount, hand value). -/
def notifyStep (dealer : Hand) (idx : Nat) (acc : Option (WinType × Nat × Nat))
    (hand : Hand) : Option (WinType × Nat × Nat) :=
  if hand.is_surrendered then acc
  else if idx = 0 then
    some ((handResult dealer hand).1, (handResult dealer hand).2, hand.value)
  else acc

/-- The indexed forEach over the player's hands in checkForWinResults. -/
def notifyLoop (dealer : Hand) : Nat → Option (WinType × Nat × Nat) → List Hand →
    Option (WinType × Nat × Nat)
  | _, acc, [] => acc
  | idx, acc, h :: t => notifyLoop dealer (idx + 1) (notifyStep dealer idx acc h) t

/-- The win notification computed by checkForWinResults for one player:
none when the player has no hands (the early return), otherwise the result of
the indexed forEach starting from no notification. -/
def checkForWinResults (dealer : Hand) (hands : List Hand) :
    Option (WinType × Nat × Nat) :=
  if hands.length = 0 then none
  else notifyLoop dealer 0 none hands

/-- Whether a two-card list is a same-rank pair, the split condition of
Game.tsx line 574: cards[0].rank === cards[1].rank on a 2-card first hand. -/
def pairSameRank : List Card → Bool
  | [c1, c2] => decide (c1.rank = c2.rank)
  | _ => false

/-- Whether the Split button is offered for a player inside the playing-turn
action block (Game.tsx lines 569-578): the first hand exists, has exactly 2
cards, and those cards have equal rank. -/
def splitOffered (p : GamePlayer) : Bool :=
  match p.hands with
  | [] => false
  | h :: _ => pairSameRank h.cards

/-- Whether the Place Bet submission is enabled in the betting dialog
(Game.tsx line 690): not (amount < minBet or amount > min maxBet chips). -/
def placeBetEnabled (minBet maxBet chips amount : Int) : Bool :=
  !(decide (amount < minBet) || decide (min maxBet chips < amount))

/-- Whether the Place Bet button is shown (Game.tsx lines 545-558): status is
waiting, the requesting player is seated, and that player has no hands. -/
def placeBetVisible (gs : GameState) (uid : String) : Bool :=
  decide (gs.status = Status.waiting) &&
    match gs.players.find? (fun q => decide (q.id = uid)) with
    | none => false
    | some p => decide (p.hands.length = 0)

/-- Whether the player action buttons (hit, stand, double, split, surrender)
are shown (Game.tsx lines 561-585): the requesting player is found and marked
as the current player, and the table status is playing. -/
def actionButtonsVisible (gs : GameState) (uid : String) : Bool :=
  match gs.players.find? (fun q => decide (q.id = uid)) with
  | none => false
  | some p => p.isCurrentPlayer && decide (gs.status = Status.playing)

/-- JavaScript-style defaulting for a possibly absent number field: x || d
yields d when x is absent or 0 (0 is falsy). -/
def jsOrNat (x : Option Nat) (d : Nat) : Nat :=
  match x with
  | none => d
  | some v => if v = 0 then d else v

/-- JavaScript-style defaulting for a possibly absent string field: x || d
yields d when x is absent or empty (the empty string is falsy). -/
def jsOrStr (x : Option String) (d : String) : String :=
  match x with
  | none => d
  | some s => if s = "" then d else s

/-- JavaScript x || null for a possibly absent string field. -/
def jsOrStrNone (x : Option String) : Option String :=
  match x with
  | none => none
  | some s => if s = "" then none else some s

/-- A backend hand payload: every field the conversion reads may be absent. -/
structure BackendHand where
  cards : Option (List Card)
  value : Option Nat
  bet : Option Nat
  is_split : Option Bool
  is_doubled : Option Bool
  is_surrendered : Option Bool
  is_finished : Option Bool
  is_blackjack : Option Bool
  is_bust : Option Bool
  can_split : Option Bool
  can_double : Option Bool
deriving DecidableEq, Repr

/-- A backend player payload (fields read by convertBackendPlayer). -/
structure BackendPlayer where
  id : String
  name : String
  chips : Int
  hands : Option (List BackendHand)
  seat_position : Option Nat
  is_active : Option Bool
  is_current_player : Option Bool
deriving DecidableEq, Repr

/-- A backend dealer payload: the conversion reads dealer.hand || dealer, so
the dealer object carries both an optional hand field and its own reading as
a hand payload. -/
structure BackendDealer where
  hand : Option BackendHand
  asHand : BackendHand
deriving DecidableEq, Repr

/-- A backend table-state payload (fields read by convertBackendTableState). -/
structure BackendState where
  id : Option String
  table_id : Option String
  name : Option String
  state : Option Status
  players : Option (List BackendPlayer)
  dealer : Option BackendDealer
  current_player_index : Option Int
  current_player_id : Option String
  min_bet : Option Nat
  max_bet : Option Nat
  bet_countdown : Option Nat
deriving DecidableEq, Repr

/-- convertBackendHand (Game.tsx lines 103-117): each absent or falsy field
defaults (cards to [], value and bet to 0, every flag to false). -/
def convertBackendHand (b : BackendHand) : Hand :=
  { cards := b.cards.getD []
    value := jsOrNat b.value 0
    bet := jsOrNat b.bet 0
    is_split := b.is_split.getD false
    is_doubled := b.is_doubled.getD false
    is_surrendered := b.is_surrendered.getD false
    is_finished := b.is_finished.getD false
    is_blackjack := b.is_blackjack.getD false
    is_bust := b.is_bust.getD false
    can_split := b.can_split.getD false
    can_double := b.can_double.getD false }

/-- convertBackendPlayer (Game.tsx lines 119-129). -/
def convertBackendPlayer (b : BackendPlayer) : GamePlayer :=
  { id := b.id
    name := b.name
    chips := b.chips
    hands := match b.hands with
      | some hs => hs.map convertBackendHand
      | none => []
    seatPosition := jsOrNat b.seat_position 1
    isActive := decide (b.is_active ≠ some false)
    isCurrentPlayer := b.is_current_player.getD false }

/-- The indexed players.map of convertBackendTableState (Game.tsx lines
132-135): each converted player's isCurrentPlayer is overwritten with
index === current_player_index && state === playing. -/
def convertPlayersFrom (cpi : Option Int) (st : Option Status) :
    Nat → List BackendPlayer → List GamePlayer
  | _, [] => []
  | idx, p :: ps =>
    { convertBackendPlayer p with
        isCurrentPlayer := decide (cpi = some (idx : Int) ∧ st = some Status.playing) } ::
      convertPlayersFrom cpi st (idx + 1) ps

/-- The default dealer hand literal of convertBackendTableState (Game.tsx
lines 143-155): empty cards, zero value and bet, all flags false. -/
def emptyHand : Hand := plainHand [] 0 0

/-- convertBackendTableState (Game.tsx lines 131-161), with the route tableId
passed explicitly. -/
def convertBackendTableState (tid : String) (b : BackendState) : GameState :=
  { id := jsOrStr b.id "game-1"
    tableId := jsOrStr b.table_id tid
    name := jsOrStr b.name ""
    status := b.state.getD Status.waiting
    players := match b.players with
      | some ps => convertPlayersFrom b.current_player_index b.state 0 ps
      | none => []
    dealerHand := match b.dealer with
      | some d => convertBackendHand (d.hand.getD d.asHand)
      | none => emptyHand
    currentPlayerId := jsOrStrNone b.current_player_id
    minBet := jsOrNat b.min_bet 10
    maxBet := jsOrNat b.max_bet 500
    bet_countdown := jsOrNat b.bet_countdown 0 }

/-- Modelled from the spec: the Hand Evaluator (spec section 4.2) lives in the
backend engine, which is not among the repository sources; this is the spec's
rank-to-base-value mapping (numeric ranks at face value, J/Q/K at 10, Ace at
11 before the recount). -/
def baseValue : CardRank → Nat
  | CardRank.ace => 11
  | CardRank.two => 2
  | CardRank.three => 3
  | CardRank.four => 4
  | CardRank.five => 5
  | CardRank.six => 6
  | CardRank.seven => 7
  | CardRank.eight => 8
  | CardRank.nine => 9
  | CardRank.ten => 10
  | CardRank.jack => 10
  | CardRank.queen => 10
  | CardRank.king => 10

/-- Sum of base values of a card sequence, every Ace counted as 11. -/
def baseSum (cards : List CardRank) : Nat := (cards.map baseValue).sum

/-- Number of Aces in a card sequence. -/
def aceCount (cards : List CardRank) : Nat :=
  cards.countP (fun r => decide (r = CardRank.ace))

/-- Modelled from the spec: the Ace recount loop of evaluate (spec section
4.2) - while the sum exceeds 21 and an Ace is still counted as 11, re-count
one Ace as 1 by subtracting 10.  Returns the final total and the number of
Aces still counted as 11. -/
def aceRecount : Nat → Nat → Nat × Nat
  | total, 0 => (total, 0)
  | total, a + 1 => if 21 < total then aceRecount (total - 10) a else (total, a + 1)

/-- Result record of the Hand Evaluator. -/
structure EvalResult where
  total : Nat
  isSoft : Bool
  isBlackjack : Bool
  isBust : Bool
deriving DecidableEq, Repr

/-- Modelled from the spec: evaluate (spec section 4.2), absent from the
repository sources.  Sums base values with every Ace as 11, runs the Ace
recount, and derives isSoft (an Ace still counted as 11), isBlackjack
(exactly 2 cards totaling 21) and isBust (total above 21). -/
def evaluate (cards : List CardRank) : EvalResult :=
  let r := aceRecount (baseSum cards) (aceCount cards)
  { total := r.1
    isSoft := decide (0 < r.2)
    isBlackjack := decide (cards.length = 2 ∧ r.1 = 21)
    isBust := decide (21 < r.1) }

/-- Concrete dealer hand: two cards totaling 19, for witnesses. -/
def dealerNineteen : Hand := plainHand [tenHearts, nineDiamonds] 19 0

/-- Concrete player hand: total 19 with bet 10, for witnesses. -/
def handNineteen : Hand := plainHand [tenHearts, nineDiamonds] 19 10

/-- Concrete dealer hand: two cards totaling 20 (no blackjack). -/
def dealerTwenty : Hand := plainHand [kingSpades, tenHearts] 20 0

/-- Concrete player natural: Ace and King, total 21, bet 10. -/
def handNatural : Hand := { plainHand [aceSpades, kingSpades] 21 10 with is_blackjack := true }

/-- Concrete surrendered hand with bet 10. -/
def handSurrendered : Hand :=
  { plainHand [fiveClubs, tenHearts] 15 10 with is_surrendered := true }

/-- Concrete dealer hand: two cards totaling 17. -/
def dealerSeventeen : Hand := plainHand [tenHearts, sevenClubs] 17 0

/-- Concrete player holding a King and a Ten as one hand: equal rank values
(both 10) but different ranks, bet 10, with 100 chips. -/
def playerKingTen : GamePlayer :=
  { id := "p1", name := "P", chips := 100,
    hands := [plainHand [kingSpades, tenHearts] 20 10],
    seatPosition := 1, isActive := true, isCurrentPlayer := true }

/-- Concrete seated player holding no hands yet. -/
def playerNoHands : GamePlayer :=
  { id := "p1", name := "P", chips := 100, hands := [],
    seatPosition := 1, isActive := true, isCurrentPlayer := false }

/-- Concrete game state in the betting status with one seated player who has
no hands and an open betting countdown. -/
def stateBetting : GameState :=
  { id := "g", tableId := "t", name := "T", status := Status.betting,
    players := [playerNoHands],
    dealerHand := emptyHand, currentPlayerId := none,
    minBet := 10, maxBet := 500, bet_countdown := 15 }

/-- The same concrete game state in the waiting status. -/
def stateWaiting : GameState := { stateBetting with status := Status.waiting }

/-- Concrete first hand holding a pair of fives. -/
def handFives : Hand := plainHand [fiveClubs, fiveClubs] 10 10

/-- Concrete player holding a pair of fives as the first hand. -/
def playerFives : GamePlayer :=
  { id := "p2", name := "Q", chips := 100, hands := [handFives],
    seatPosition := 2, isActive := true, isCurrentPlayer := true }

/-- Concrete backend player payload for witnesses. -/
def backendPlayerOne : BackendPlayer :=
  { id := "u1", name := "U", chips := 100, hands := some [],
    seat_position := some 1, is_active := some true, is_current_player := some false }

/-- Concrete backend state payload in the playing phase whose cursor points at
the only player. -/
def backendStatePlaying : BackendState :=
  { id := some "g", table_id := some "t", name := some "T",
    state := some Status.playing, players := some [backendPlayerOne],
    dealer := none, current_player_index := some 0, current_player_id := none,
    min_bet := some 10, max_bet := some 500, bet_countdown := some 0 }

/-- Backend hand payload with every field absent. -/
def backendHandEmpty : BackendHand :=
  ⟨none, none, none, none, none, none, none, none, none, none, none⟩

/-- Backend state payload with every field absent. -/
def backendStateEmpty : BackendState :=
  ⟨none, none, none, none, none, none, none, none, none, none, none⟩

/-- Claim C1: for every settled hand that is not surrendered and not a
blackjack, the computed outcome and returned amount match the settlement
table - bust loses with return 0 regardless of the dealer; otherwise a dealer
bust or a higher hand total wins bet times 2; an equal total pushes returning
the bet; a lower total loses with return 0. -/
theorem C1_settlement_table (dealer hand : Hand) (hbj : hand.is_blackjack = false) :
    handResult dealer hand = settleNonBlackjackSpec dealer hand := by
  by_cases hb : hand.is_bust = true
  · simp [handResult, settleNonBlackjackSpec, hb]
  · have hb2 : hand.is_bust = false := by
      revert hb; cases hand.is_bust <;> simp
    by_cases h1 : 21 < dealer.value
    · simp [handResult, settleNonBlackjackSpec, hbj, hb2, h1]
    · by_cases h2 : dealer.value < hand.value
      · have h3 : ¬ hand.value = dealer.value := by omega
        simp [handResult, settleNonBlackjackSpec, hbj, hb2, h1, h2, h3]
      · by_cases h3 : hand.value = dealer.value
        · simp [handResult, settleNonBlackjackSpec, hbj, hb2, h1, h2, h3]
        · simp [handResult, settleNonBlackjackSpec, hbj, hb2, h1, h2, h3]

/-- Witness for C1: player 19 against dealer 19 with bet 10 pushes and
returns 10. -/
theorem C1_settlement_table_witness :
    handNineteen.is_blackjack = false ∧
    handResult dealerNineteen handNineteen = (WinType.push, 10) := by
  refine ⟨by decide, ?_⟩
  rw [C1_settlement_table dealerNineteen handNineteen (by decide)]
  decide

/-- Claim C2: a settled blackjack hand pushes (returning the bet) when the
dealer also holds a two-card 21, and otherwise pays outcome blackjack with
return bet + floor(bet * 1.5). -/
theorem C2_blackjack_payout (dealer hand : Hand) (hbj : hand.is_blackjack = true)
    (hb : hand.is_bust = false) :
    handResult dealer hand =
      if dealer.cards.length = 2 ∧ dealer.value = 21 then (WinType.push, hand.bet)
      else (WinType.blackjack, hand.bet + hand.bet * 3 / 2) := by
  by_cases hd : dealer.cards.length = 2 ∧ dealer.value = 21
  · rw [if_pos hd]; simp [handResult, hbj, hb, hd]
  · rw [if_neg hd]; simp [handResult, hbj, hb, hd]

/-- Witness for C2: a natural with bet 10 against a dealer 20 returns 25 with
outcome blackjack. -/
theorem C2_blackjack_payout_witness :
    handNatural.is_blackjack = true ∧ handNatural.is_bust = false ∧
    handNatural.bet = 10 ∧
    handResult dealerTwenty handNatural = (WinType.blackjack, 25) := by
  refine ⟨by decide, by decide, by decide, ?_⟩
  rw [C2_blackjack_payout dealerTwenty handNatural (by decide) (by decide)]
  decide

/-- Claim C3: the place-bet submission is enabled exactly when the amount lies
between the table minimum and the smaller of the table maximum and the
player's chips. -/
theorem C3_bet_range (minBet maxBet chips amount : Int) :
    placeBetEnabled minBet maxBet chips amount = true ↔
      minBet ≤ amount ∧ amount ≤ min maxBet chips := by
  simp [placeBetEnabled, not_lt]

/-- Witness for C3: with table limits 10/500 and 100 chips, a bet of 50 is
accepted. -/
theorem C3_bet_range_witness : placeBetEnabled 10 500 100 50 = true :=
  (C3_bet_range 10 500 100 50).mpr (by decide)

/-- A list of cards passes the pair test exactly when it is two cards of
equal rank. -/
theorem pairSameRank_iff (cs : List Card) :
    pairSameRank cs = true ↔ ∃ c1 c2, cs = [c1, c2] ∧ c1.rank = c2.rank := by
  rcases cs with _ | ⟨c1, _ | ⟨c2, _ | ⟨c3, t⟩⟩⟩
  · simp [pairSameRank]
  · simp [pairSameRank]
  · simp only [pairSameRank, decide_eq_true_eq, List.cons.injEq, and_true]
    constructor
    · intro h
      exact ⟨c1, c2, ⟨rfl, rfl⟩, h⟩
    · rintro ⟨a, b, ⟨rfl, rfl⟩, h⟩
      exact h
  · simp [pairSameRank]

/-- Counterexample to claim C4: a first hand of King and Ten has exactly 2
cards of equal rank value (both 10) and the seat's chips (100) cover the bet
(10), yet the split action is not offered, because the code compares the rank
strings, not the rank values. -/
theorem C4_counterexample :
    (playerKingTen.hands.headD emptyHand).cards.length = 2 ∧
    ((playerKingTen.hands.headD emptyHand).cards.headD aceSpades).value =
      ((playerKingTen.hands.headD emptyHand).cards.getD 1 aceSpades).value ∧
    ((playerKingTen.hands.headD emptyHand).bet : Int) ≤ playerKingTen.chips ∧
    splitOffered playerKingTen = false := by decide

/-- Claim C4 (amended): the split action is offered exactly when the player's
first hand has exactly 2 cards whose ranks are literally equal; the seat's
chips are not consulted. -/
theorem C4_split_offered_iff (p : GamePlayer) :
    splitOffered p = true ↔
      ∃ h hs c1 c2, p.hands = h :: hs ∧ h.cards = [c1, c2] ∧ c1.rank = c2.rank := by
  cases hp : p.hands with
  | nil =>
    have hv : splitOffered p = false := by unfold splitOffered; rw [hp]
    simp [hv, hp]
  | cons h hs =>
    have hv : splitOffered p = pairSameRank h.cards := by unfold splitOffered; rw [hp]
    rw [hv, pairSameRank_iff]
    constructor
    · rintro ⟨c1, c2, hc, hr⟩
      exact ⟨h, hs, c1, c2, rfl, hc, hr⟩
    · rintro ⟨h2, hs2, c1, c2, hph, hc, hr⟩
      injection hph with e1 e2
      subst e1
      exact ⟨c1, c2, hc, hr⟩

/-- Witness for the amended C4: a pair of fives as the first hand has the
split action offered. -/
theorem C4_split_offered_iff_witness : splitOffered playerFives = true :=
  (C4_split_offered_iff playerFives).mpr
    ⟨handFives, [], fiveClubs, fiveClubs, rfl, rfl, rfl⟩

/-- The notification loop never changes its accumulator once past index 0. -/
theorem notifyLoop_const (dealer : Hand) :
    ∀ (t : List Hand) (idx : Nat) (acc : Option (WinType × Nat × Nat)),
      0 < idx → notifyLoop dealer idx acc t = acc := by
  intro t
  induction t with
  | nil => intro idx acc hpos; rfl
  | cons h t ih =>
    intro idx acc hpos
    have hstep : notifyStep dealer idx acc h = acc := by
      have hne : ¬ idx = 0 := by omega
      unfold notifyStep
      simp [hne]
    show notifyLoop dealer (idx + 1) (notifyStep dealer idx acc h) t = acc
    rw [hstep]
    exact ih (idx + 1) acc (by omega)

/-- Claim C10: the round-result notification is computed from the hand at
index 0 only - later (split) hands never affect it - and a surrendered first
hand produces no notification at all. -/
theorem C10_notification_first_hand_only (dealer h : Hand) (rest : List Hand) :
    checkForWinResults dealer (h :: rest) =
      if h.is_surrendered then none
      else some ((handResult dealer h).1, (handResult dealer h).2, h.value) := by
  unfold checkForWinResults
  simp only [List.length_cons]
  rw [if_neg (by omega : ¬ (rest.length + 1 = 0))]
  show notifyLoop dealer 1 (notifyStep dealer 0 none h) rest = _
  rw [notifyLoop_const dealer rest 1 _ (by omega)]
  unfold notifyStep
  simp

/-- Counterexample to claim C6: a surrendered hand with bet 10 yields no
result at all from the settlement display - there is no surrender outcome and
no returned amount of 5. -/
theorem C6_counterexample :
    handSurrendered.is_surrendered = true ∧ handSurrendered.bet = 10 ∧
    checkForWinResults dealerSeventeen [handSurrendered] = none := by decide

/-- Claim C6 (amended): a surrendered first hand is skipped entirely by the
settlement display: no outcome and no returned amount are produced for it. -/
theorem C6_surrender_skipped (dealer hand : Hand) (hs : List Hand)
    (h : hand.is_surrendered = true) :
    checkForWinResults dealer (hand :: hs) = none := by
  unfold checkForWinResults
  simp only [List.length_cons]
  rw [if_neg (by omega : ¬ (hs.length + 1 = 0))]
  show notifyLoop dealer 1 (notifyStep dealer 0 none hand) hs = none
  rw [notifyLoop_const dealer hs 1 _ (by omega)]
  unfold notifyStep
  simp [h]

/-- Witness for the amended C6: the concrete surrendered hand yields no
notification. -/
theorem C6_surrender_skipped_witness :
    checkForWinResults dealerSeventeen [handSurrendered] = none :=
  C6_surrender_skipped dealerSeventeen handSurrendered [] (by decide)

/-- Counterexample to claim C7: in a state whose status is betting, with an
open countdown and a seated player without hands, the place-bet control is
not available - it is only offered while the status is waiting. -/
theorem C7_counterexample :
    stateBetting.status = Status.betting ∧
    0 < stateBetting.bet_countdown ∧
    (stateBetting.players.find? (fun q => decide (q.id = "p1"))).isSome = true ∧
    placeBetVisible stateBetting "p1" = false := by decide

/-- Claim C7 (amended): the place-bet control is offered exactly when the
table status is waiting and the requesting player is seated with no hands. -/
theorem C7_bet_visible_iff (gs : GameState) (uid : String) :
    placeBetVisible gs uid = true ↔
      gs.status = Status.waiting ∧
      ∃ p, gs.players.find? (fun q => decide (q.id = uid)) = some p ∧
        p.hands = [] := by
  unfold placeBetVisible
  cases hf : gs.players.find? (fun q => decide (q.id = uid)) with
  | none => simp
  | some p => simp [List.length_eq_zero]

/-- Witness for the amended C7: in the waiting status the seated player with
no hands is offered the place-bet control. -/
theorem C7_bet_visible_iff_witness : placeBetVisible stateWaiting "p1" = true :=
  (C7_bet_visible_iff stateWaiting "p1").mpr ⟨rfl, playerNoHands, by decide, rfl⟩

/-- Finding a player by id among the converted players yields an underlying
backend player at some index j, and the found player's current-player flag is
exactly the comparison of that index with the cursor together with the
playing-state check. -/
theorem find_convertPlayersFrom (cpi : Option Int) (st : Option Status) (uid : String) :
    ∀ (ps : List BackendPlayer) (idx : Nat) (q : GamePlayer),
      (convertPlayersFrom cpi st idx ps).find? (fun r => decide (r.id = uid)) = some q →
      ∃ j p, ps.get? j = some p ∧ p.id = uid ∧
        q.isCurrentPlayer =
          decide (cpi = some ((idx + j : Nat) : Int) ∧ st = some Status.playing) := by
  intro ps
  induction ps with
  | nil =>
    intro idx q h
    simp [convertPlayersFrom] at h
  | cons p ps ih =>
    intro idx q h
    simp only [convertPlayersFrom, List.find?_cons] at h
    split at h
    · rename_i hpt
      injection h with hq
      have hid : p.id = uid := by
        have hdec := of_decide_eq_true (by simpa using hpt)
        simpa [convertBackendPlayer] using hdec
      refine ⟨0, p, rfl, hid, ?_⟩
      rw [← hq]
      simp [convertBackendPlayer]
    · rename_i hpf
      obtain ⟨j, p2, hget, hid2, hicp⟩ := ih (idx + 1) q h
      refine ⟨j + 1, p2, by simpa using hget, hid2, ?_⟩
      have harith : idx + 1 + j = idx + (j + 1) := by omega
      rw [harith] at hicp
      exact hicp

/-- Claim C5: the player action controls are offered only when the backend
state is in the playing phase and the requesting player sits at the index the
turn cursor points to. -/
theorem C5_actions_only_at_cursor (tid : String) (b : BackendState) (uid : String)
    (hv : actionButtonsVisible (convertBackendTableState tid b) uid = true) :
    b.state = some Status.playing ∧
    ∃ ps j p, b.players = some ps ∧ ps.get? j = some p ∧ p.id = uid ∧
      b.current_player_index = some (j : Int) := by
  unfold actionButtonsVisible at hv
  cases hps : b.players with
  | none =>
    have hpl : (convertBackendTableState tid b).players = [] := by
      rw [show (convertBackendTableState tid b).players =
        (match b.players with
         | some l => convertPlayersFrom b.current_player_index b.state 0 l
         | none => []) from rfl, hps]
    rw [hpl] at hv
    simp [List.find?] at hv
  | some ps =>
    have hpl : (convertBackendTableState tid b).players =
        convertPlayersFrom b.current_player_index b.state 0 ps := by
      rw [show (convertBackendTableState tid b).players =
        (match b.players with
         | some l => convertPlayersFrom b.current_player_index b.state 0 l
         | none => []) from rfl, hps]
    rw [hpl] at hv
    cases hf : (convertPlayersFrom b.current_player_index b.state 0 ps).find?
        (fun r => decide (r.id = uid)) with
    | none =>
      rw [hf] at hv
      simp at hv
    | some q =>
      rw [hf] at hv
      have hand := (Bool.and_eq_true _ _).mp hv
      obtain ⟨j, p, hget, hid, hicp⟩ :=
        find_convertPlayersFrom b.current_player_index b.state uid ps 0 q hf
      have hicpt : q.isCurrentPlayer = true := hand.1
      rw [hicp] at hicpt
      obtain ⟨hcpi, hst⟩ := of_decide_eq_true hicpt
      refine ⟨hst, ps, j, p, rfl, hget, hid, ?_⟩
      simpa using hcpi

/-- Witness for C5: in a concrete playing-phase backend state with the cursor
at index 0, the action controls are visible for the seated player, and the
theorem's conclusion holds there. -/
theorem C5_actions_only_at_cursor_witness :
    backendStatePlaying.state = some Status.playing ∧
    ∃ ps j p, backendStatePlaying.players = some ps ∧ ps.get? j = some p ∧
      p.id = "u1" ∧ backendStatePlaying.current_player_index = some (j : Int) :=
  C5_actions_only_at_cursor "t" backendStatePlaying "u1" (by decide)

/-- The Ace recount loop re-counts some k of the Aces as 1 (each subtracting
10), never more than there are Aces, leaves the rest counted as 11, stops as
soon as the total is at most 21 (or every Ace is re-counted), and only ever
ran while the total exceeded 21. -/
theorem aceRecount_spec :
    ∀ (a total : Nat), ∃ k, k ≤ a ∧
      (aceRecount total a).1 + 10 * k = total ∧
      (aceRecount total a).2 = a - k ∧
      ((aceRecount total a).1 ≤ 21 ∨ k = a) ∧
      (k = 0 ∨ 11 < (aceRecount total a).1) := by
  intro a
  induction a with
  | zero =>
    intro total
    have hrec : aceRecount total 0 = (total, 0) := rfl
    rw [hrec]
    exact ⟨0, by omega, by omega, by omega, by omega, by omega⟩
  | succ a ih =>
    intro total
    by_cases hgt : 21 < total
    · have hrec : aceRecount total (a + 1) = aceRecount (total - 10) a := by
        simp [aceRecount, hgt]
      rw [hrec]
      obtain ⟨k, hk, hsum, hcnt, hstop, hprog⟩ := ih (total - 10)
      exact ⟨k + 1, by omega, by omega, by omega, by omega, by omega⟩
    · have hrec : aceRecount total (a + 1) = (total, a + 1) := by
        simp [aceRecount, hgt]
      rw [hrec]
      exact ⟨0, by omega, by omega, by omega, by omega, by omega⟩

/-- Claim C8: for every card sequence, evaluate sums the cards with every Ace
as 11 and re-counts k Aces as 1 (10 less each), for some k no larger than the
Ace count, stopping once the total is at most 21 (or all Aces are re-counted)
and only re-counting while the total exceeded 21; isSoft holds exactly when
an Ace remains counted as 11, isBlackjack exactly for 2 cards totaling 21,
isBust exactly when the total exceeds 21; and [A,A,9] evaluates to total 21,
soft, not blackjack, not bust. -/
theorem C8_evaluate_spec :
    (∀ cards : List CardRank,
      ((evaluate cards).isBust = true ↔ 21 < (evaluate cards).total) ∧
      ((evaluate cards).isBlackjack = true ↔
        cards.length = 2 ∧ (evaluate cards).total = 21) ∧
      ∃ k, k ≤ aceCount cards ∧
        (evaluate cards).total + 10 * k = baseSum cards ∧
        ((evaluate cards).isSoft = true ↔ k < aceCount cards) ∧
        ((evaluate cards).total ≤ 21 ∨ k = aceCount cards) ∧
        (k = 0 ∨ 11 < (evaluate cards).total)) ∧
    evaluate [CardRank.ace, CardRank.ace, CardRank.nine] =
      ⟨21, true, false, false⟩ := by
  constructor
  · intro cards
    obtain ⟨k, hk, hsum, hcnt, hstop, hprog⟩ :=
      aceRecount_spec (aceCount cards) (baseSum cards)
    refine ⟨by simp [evaluate], by simp [evaluate], k, hk, ?_, ?_, ?_, ?_⟩
    · simpa [evaluate] using hsum
    · simp only [evaluate, decide_eq_true_eq]
      rw [hcnt]
      omega
    · simpa [evaluate] using hstop
    · simpa [evaluate] using hprog
  · decide

/-- Claim C9: the backend-to-frontend conversion is total, and every listed
absent field takes its documented default - hand cards to [], value and bet
to 0 and flags to false (the empty hand), an absent dealer to the empty hand,
an absent player list to [], and absent table limits to 10 and 500. -/
theorem C9_conversion_defaults (bh : BackendHand) (b : BackendState) (tid : String)
    (hc : bh.cards = none) (hv : bh.value = none) (hbt : bh.bet = none)
    (h1 : bh.is_split = none) (h2 : bh.is_doubled = none)
    (h3 : bh.is_surrendered = none) (h4 : bh.is_finished = none)
    (h5 : bh.is_blackjack = none) (h6 : bh.is_bust = none)
    (h7 : bh.can_split = none) (h8 : bh.can_double = none)
    (hd : b.dealer = none) (hp : b.players = none)
    (hmin : b.min_bet = none) (hmax : b.max_bet = none) :
    convertBackendHand bh = emptyHand ∧
    (convertBackendTableState tid b).dealerHand = emptyHand ∧
    (convertBackendTableState tid b).players = [] ∧
    (convertBackendTableState tid b).minBet = 10 ∧
    (convertBackendTableState tid b).maxBet = 500 := by
  refine ⟨?_, ?_, ?_, ?_, ?_⟩
  · simp [convertBackendHand, emptyHand, plainHand, jsOrNat,
      hc, hv, hbt, h1, h2, h3, h4, h5, h6, h7, h8]
  · simp [convertBackendTableState, hd]
  · simp [convertBackendTableState, hp]
  · simp [convertBackendTableState, jsOrNat, hmin]
  · simp [convertBackendTableState, jsOrNat, hmax]

/-- Witness for C9: the all-absent payloads convert to the documented
defaults. -/
theorem C9_conversion_defaults_witness :
    convertBackendHand backendHandEmpty = emptyHand ∧
    (convertBackendTableState "t" backendStateEmpty).dealerHand = emptyHand ∧
    (convertBackendTableState "t" backendStateEmpty).players = [] ∧
    (convertBackendTableState "t" backendStateEmpty).minBet = 10 ∧
    (convertBackendTableState "t" backendStateEmpty).maxBet = 500 :=
  C9_conversion_defaults backendHandEmpty backendStateEmpty "t"
    rfl rfl rfl rfl rfl rfl rfl rfl rfl rfl rfl rfl rfl rfl rfl

end Blackjack

